import Mathlib

/-!
Shallow embedding of the WindBorne vendor-dashboard core logic:

* the JavaScript value helpers and display formatters of
  `frontend/src/data/mockVendorData.ts` (`safeNumber`, `safeString`,
  `formatPercentage`, `formatPERatio`, `mapBackendVendorToFrontend`,
  `mapBackendVendorsToFrontend`);
* the filter/sort view model of
  `frontend/src/components/dashboard/ComparisonTable.tsx`
  (`filteredAndSortedVendors`, `handleSort`);
* the rule-based recommendation generator of
  `frontend/src/components/dashboard/FinancialRecommendations.tsx`
  (`generateRecommendations`) and the crash-relevant computations of
  `RiskAnalysisPanel.tsx` and `KPICards.tsx`.

Modelling conventions: JavaScript numbers are modelled as rationals `ℚ`
(the code under scrutiny performs only field arithmetic, comparisons and
decimal rounding, none of which depends on binary floating-point artefacts);
a possibly-null / possibly-undefined / possibly-NaN number is the inductive
`JVal`; a possibly-missing string is `Option String`; `Number.prototype.toFixed`
is decimal rounding with ties toward the larger value; `Array.prototype.sort`
is the stable `List.mergeSort` ordered by "comparator result ≤ 0";
`String.prototype.localeCompare` is modelled as code-point lexicographic
comparison; a thrown `TypeError` is `Except.error`.
-/

/-- A JavaScript "number slot" as it can arrive from the backend JSON:
`null`, `undefined` (a missing property), `NaN`, or an actual number
(modelled as a rational). -/
inductive JVal where
  | null
  | undef
  | nan
  | num (q : ℚ)
deriving DecidableEq

/-- The test `value === null || value === undefined || isNaN(Number(value))`
that guards `safeNumber`, `formatPercentage`, `formatPERatio` and `formatROE`
in `mockVendorData.ts` (note `Number(null) = 0`, which is not NaN, but the
explicit `=== null` check catches it). -/
def jsMissing : JVal → Bool
  | .num _ => false
  | _ => true

/-- One decimal digit as a character; the argument is always `< 10` at every
call site (it is produced by `% 10`). -/
def digitChar : ℕ → Char
  | 0 => '0'
  | 1 => '1'
  | 2 => '2'
  | 3 => '3'
  | 4 => '4'
  | 5 => '5'
  | 6 => '6'
  | 7 => '7'
  | 8 => '8'
  | 9 => '9'
  | _ => '0'

/-- Base-10 digit characters of a natural number, most significant first,
computed with explicit fuel so that the definition is structurally recursive. -/
def natDigitsAux : ℕ → ℕ → List Char
  | _, 0 => []
  | n, fuel + 1 =>
    if n < 10 then [digitChar n]
    else natDigitsAux (n / 10) fuel ++ [digitChar (n % 10)]

/-- Base-10 rendering of a natural number as a list of digit characters. -/
def natDigits (n : ℕ) : List Char := natDigitsAux n (n + 1)

/-- Base-10 rendering of a natural number as a string (how the embedding
prints the lengths and percentages that JavaScript template literals
interpolate). -/
def natRepr (n : ℕ) : String := String.mk (natDigits n)

/-- Rounding half toward the larger value, the rounding `Number.prototype.toFixed`
applies; `Math.round` is `mathRound` below with the same convention. -/
def roundHalfUp (q : ℚ) : ℤ := ⌊q + 1 / 2⌋

/-- Rendering `x.toFixed(1)` for a non-negative number `x`: one digit after the decimal
point. Every `toFixed(1)` call site in the embedded code passes a
non-negative value (`formatPercentage` and `formatROE` take `Math.abs` first,
`formatPERatio` has already checked `0 < x`). -/
def toFixed1 (q : ℚ) : String :=
  String.mk (natDigits ((roundHalfUp (q * 10)).toNat / 10) ++
    '.' :: [digitChar ((roundHalfUp (q * 10)).toNat % 10)])

/-- Rendering `x.toFixed(0)` for a non-negative number `x`. -/
def toFixed0 (q : ℚ) : String := String.mk (natDigits (roundHalfUp q).toNat)

/-- JavaScript `Math.round`, as a function on the rational model of JS numbers. -/
def mathRound (q : ℚ) : ℚ := ((roundHalfUp q : ℤ) : ℚ)

/-- Source `mockVendorData.ts` lines 78-87: `formatPercentage` renders `"N/A"` for a
missing value, parenthesizes the absolute value of a negative percentage and
renders a non-negative one with one decimal and a trailing `%`. -/
def formatPercentage : JVal → String
  | .num q => if q < 0 then "(" ++ toFixed1 (-q) ++ "%)" else toFixed1 q ++ "%"
  | _ => "N/A"

/-- Source `mockVendorData.ts` lines 89-98: `formatPERatio` renders `"N/A"` for a
missing value and for a ratio `≤ 0` or `> 1000`, and one decimal otherwise. -/
def formatPERatio : JVal → String
  | .num q => if q ≤ 0 ∨ 1000 < q then "N/A" else toFixed1 q
  | _ => "N/A"

/-- Source `mockVendorData.ts` lines 112-117: `safeNumber` maps null/undefined/NaN to
`0` and otherwise rounds to `decimals` decimal places
(`Number(Number(value).toFixed(decimals))`). -/
def safeNumber (value : JVal) (decimals : ℕ) : ℚ :=
  match value with
  | .num q => ((roundHalfUp (q * 10 ^ decimals) : ℤ) : ℚ) / 10 ^ decimals
  | _ => 0

/-- Source `mockVendorData.ts` lines 119-124: `safeString` substitutes `fallback` for
null/undefined and otherwise keeps the string. -/
def safeString (value : Option String) (fallback : String) : String :=
  match value with
  | some s => s
  | none => fallback

/-- JavaScript division of a number slot by a positive literal (used for the
`/ 1_000_000_000` conversions): `null / d = 0` because `Number(null) = 0`,
while `undefined / d` and `NaN / d` are NaN. -/
def jsDivLit (value : JVal) (d : ℚ) : JVal :=
  match value with
  | .null => .num 0
  | .undef => .nan
  | .nan => .nan
  | .num q => .num (q / d)

/-- JavaScript `x || d` for a number slot `x` (null, undefined, NaN and `0`
are falsy). -/
def jsOrNum (value : JVal) (d : ℚ) : ℚ :=
  match value with
  | .num q => if q = 0 then d else q
  | _ => d

/-- JavaScript `x || d` where `x` is an optional-chaining number access
(`a?.b`): `undefined` and `0` are falsy. -/
def jsOrQ (value : Option ℚ) (d : ℚ) : ℚ :=
  match value with
  | some q => if q = 0 then d else q
  | none => d

/-- JavaScript `x || d` for an always-present number `x` (`0` is falsy). -/
def jsOrQV (q : ℚ) (d : ℚ) : ℚ := if q = 0 then d else q

/-- The `industry` union of the frontend `VendorData` type
(`mockVendorData.ts` line 5). -/
inductive Industry where
  | Sensors
  | Materials
  | Plastics
deriving DecidableEq

/-- The string a given `Industry` value is, as JavaScript sees it. -/
def industryStr : Industry → String
  | .Sensors => "Sensors"
  | .Materials => "Materials"
  | .Plastics => "Plastics"

/-- The `riskLevel` union of `VendorData` (`mockVendorData.ts` line 11). -/
inductive RiskLevel where
  | low
  | medium
  | high
deriving DecidableEq

/-- The string a given `RiskLevel` value is, as JavaScript sees it. -/
def riskLevelStr : RiskLevel → String
  | .low => "low"
  | .medium => "medium"
  | .high => "high"

/-- The `vendorType` union of `VendorData` (`mockVendorData.ts` line 6). -/
inductive VendorType where
  | sensorSupplier
  | materialsSupplier
deriving DecidableEq

/-- The string a given `VendorType` value is, as JavaScript sees it. -/
def vendorTypeStr : VendorType → String
  | .sensorSupplier => "Sensor Supplier"
  | .materialsSupplier => "Materials Supplier"

/-- The fields of the optional `financialRatios` object of `VendorData` that
the embedded components read (`mockVendorData.ts` lines 45-54). -/
structure FinancialRatios where
  debt_to_equity : Option ℚ
  current_ratio : Option ℚ
  cash_ratio : Option ℚ
deriving DecidableEq

/-- The fields of the optional `riskScores` object of `VendorData` that the
embedded components read (`mockVendorData.ts` lines 57-64). -/
structure RiskScores where
  financial_stability : Option ℚ
  growth_prospects : Option ℚ
  risk_score : Option ℚ
deriving DecidableEq

/-- The field of the optional `balanceSheet` object of `VendorData` that the
embedded components read (`mockVendorData.ts` lines 32-42). -/
structure BalanceSheet where
  cash_and_cash_equivalents : Option ℚ
deriving DecidableEq

/-- The normalized frontend vendor record (`VendorData` in
`mockVendorData.ts` lines 1-65). Numeric fields are plain rationals: the
normalizer below always produces an actual number for them, which claim C2
is about. -/
structure VendorData where
  id : ℚ
  symbol : String
  name : String
  industry : Industry
  vendorType : VendorType
  marketCap : ℚ
  revenue : ℚ
  profitMargin : ℚ
  peRatio : ℚ
  riskLevel : RiskLevel
  quarterlyRevenue : List ℚ
  weekHigh52 : ℚ
  weekLow52 : ℚ
  lastUpdated : String
  currentPrice : ℚ
  stockPrice : ℚ
  riskScore : ℚ
  financialHealth : ℚ
  marketStability : ℚ
  growthProspects : ℚ
  financialStability : Option ℚ
  beta : ℚ
  roe : ℚ
  debtToEquity : ℚ
  balanceSheet : Option BalanceSheet
  financialRatios : Option FinancialRatios
  riskScores : Option RiskScores
deriving DecidableEq

/-- The raw backend record (`BackendVendor` in `services/api.ts`), with every
runtime-nullable slot modelled as such: number fields are `JVal`, string
fields `Option String`, and the union-typed fields optional values of their
union. -/
structure BackendVendor where
  id : JVal
  name : Option String
  symbol : Option String
  vendorType : Option VendorType
  industry : Option String
  marketCap : JVal
  profitMargin : JVal
  revenue : JVal
  weekHigh52 : JVal
  weekLow52 : JVal
  currentPrice : JVal
  risk : Option RiskLevel
  riskScore : JVal
  financialHealth : JVal
  marketStability : JVal
  growthProspects : JVal
  peRatio : JVal
  beta : JVal
  roe : JVal
  debtToEquity : JVal
  lastUpdated : Option String
  quarterlyRevenue : Option (List ℚ)
deriving DecidableEq

/-- The `catch` branch of `mapBackendVendorToFrontend`
(`mockVendorData.ts` lines 192-220): the fully-defaulted placeholder record,
tagged with the original symbol when available and `"UNKNOWN"` otherwise.
`now` stands for `new Date().toISOString()`. -/
def fallbackVendor (now : String) (b : BackendVendor) : VendorData where
  id := 0
  symbol := safeString b.symbol "UNKNOWN"
  name := safeString b.name "Unknown Vendor"
  industry := .Materials
  vendorType := .materialsSupplier
  marketCap := 0
  revenue := 0
  profitMargin := 0
  peRatio := 0
  riskLevel := .medium
  quarterlyRevenue := []
  weekHigh52 := 0
  weekLow52 := 0
  lastUpdated := now
  currentPrice := 0
  stockPrice := 0
  riskScore := 50
  financialHealth := 50
  marketStability := 50
  growthProspects := 50
  financialStability := none
  beta := 1
  roe := 0
  debtToEquity := 0
  balanceSheet := none
  financialRatios := none
  riskScores := none

/-- The mapper `mapBackendVendorToFrontend` (`mockVendorData.ts` lines 162-221). The
`try` block is total on plain JSON records (field reads, arithmetic and the
`safe*` helpers cannot throw), so the embedding is the `try` block itself;
the `catch` branch is `fallbackVendor` above. `now` stands for
`new Date().toISOString()`. -/
def mapBackendVendorToFrontend (now : String) (b : BackendVendor) : VendorData where
  id := jsOrNum b.id 0
  symbol := safeString b.symbol "N/A"
  name := safeString b.name "N/A"
  industry := if b.industry = some "Sensors" then .Sensors else .Materials
  vendorType := b.vendorType.getD .materialsSupplier
  marketCap := safeNumber (jsDivLit b.marketCap 1000000000) 1
  revenue := safeNumber (jsDivLit b.revenue 1000000000) 1
  profitMargin := safeNumber b.profitMargin 1
  peRatio := safeNumber b.peRatio 1
  riskLevel := b.risk.getD .medium
  quarterlyRevenue := b.quarterlyRevenue.getD []
  weekHigh52 := safeNumber b.weekHigh52 1
  weekLow52 := safeNumber b.weekLow52 1
  lastUpdated := safeString b.lastUpdated now
  currentPrice := safeNumber b.currentPrice 1
  stockPrice := safeNumber b.currentPrice 1
  riskScore := mathRound (safeNumber b.riskScore 1)
  financialHealth := mathRound (safeNumber b.financialHealth 1)
  marketStability := mathRound (safeNumber b.marketStability 1)
  growthProspects := mathRound (safeNumber b.growthProspects 1)
  financialStability := none
  beta := safeNumber b.beta 3
  roe := safeNumber b.roe 1
  debtToEquity := safeNumber b.debtToEquity 2
  balanceSheet := none
  financialRatios := none
  riskScores := none

/-- The list mapper `mapBackendVendorsToFrontend` (`mockVendorData.ts` lines 226-228). -/
def mapBackendVendorsToFrontend (now : String) (bs : List BackendVendor) : List VendorData :=
  bs.map (mapBackendVendorToFrontend now)

/-- Lowercased character list of a string: the model of
`String.prototype.toLowerCase()` used before every search comparison. -/
def lowerChars (s : String) : List Char := s.data.map Char.toLower

/-- Whether `pat` is a prefix of `l` (helper for the `includes` model). -/
def leadMatch : List Char → List Char → Bool
  | _, [] => true
  | [], _ :: _ => false
  | a :: as, b :: bs => a == b && leadMatch as bs

/-- Whether `pat` occurs contiguously in `l`: the model of
`String.prototype.includes`. -/
def containsSub : List Char → List Char → Bool
  | [], pat => pat.isEmpty
  | a :: t, pat => leadMatch (a :: t) pat || containsSub t pat

/-- The search condition of `ComparisonTable.tsx` lines 54-61: the lowercased
search term occurs in the lowercased name, symbol or industry. -/
def matchesSearch (searchTerm : String) (v : VendorData) : Bool :=
  containsSub (lowerChars v.name) (lowerChars searchTerm) ||
  containsSub (lowerChars v.symbol) (lowerChars searchTerm) ||
  containsSub (lowerChars (industryStr v.industry)) (lowerChars searchTerm)

/-- The type condition of `ComparisonTable.tsx` lines 64-69 (evaluated when
`filterType !== 'all'`). -/
def typeMatch (filterType : String) (v : VendorData) : Bool :=
  (filterType == "sensors" && v.industry == .Sensors) ||
  (filterType == "materials" && (v.industry == .Materials || v.industry == .Plastics))

/-- The filter predicate of `ComparisonTable.tsx` lines 52-77, with the same
early-return structure as the source. -/
def matchesFilters (searchTerm filterType filterRisk : String) (v : VendorData) : Bool :=
  if searchTerm ≠ "" ∧ ¬ matchesSearch searchTerm v then false
  else if filterType ≠ "all" ∧ ¬ typeMatch filterType v then false
  else if filterRisk ≠ "all" ∧ riskLevelStr v.riskLevel ≠ filterRisk then false
  else true

/-- The sortable columns of the comparison table: exactly the fields
`ComparisonTable.tsx` passes to `handleSort` (lines 296, 307, 318, 329, 340,
351, 371). -/
inductive SortField where
  | name
  | vendorType
  | marketCap
  | revenue
  | profitMargin
  | peRatio
  | riskLevel
deriving DecidableEq

/-- The `sortOrder` state of the table. -/
inductive SortOrder where
  | asc
  | desc
deriving DecidableEq

/-- The value `a[sortField]` the comparator reads, tagged with its JavaScript
runtime type. -/
inductive JsSortValue where
  | num (q : ℚ)
  | str (s : String)
deriving DecidableEq

/-- Field access `v[f]` for the sortable columns. -/
def getSortValue (v : VendorData) : SortField → JsSortValue
  | .name => .str v.name
  | .vendorType => .str (vendorTypeStr v.vendorType)
  | .marketCap => .num v.marketCap
  | .revenue => .num v.revenue
  | .profitMargin => .num v.profitMargin
  | .peRatio => .num v.peRatio
  | .riskLevel => .str (riskLevelStr v.riskLevel)

/-- Strict code-point lexicographic order on character lists, the model of
the order `localeCompare` induces. -/
def lexLt : List Char → List Char → Bool
  | _, [] => false
  | [], _ :: _ => true
  | a :: as, b :: bs => a.toNat < b.toNat || (a == b && lexLt as bs)

/-- The model of `x.localeCompare(y)`: negative, zero or positive as `x` is
before, equal to or after `y`. -/
def localeCompare (x y : String) : ℚ :=
  if lexLt x.data y.data then -1 else if lexLt y.data x.data then 1 else 0

/-- The comparator of `ComparisonTable.tsx` lines 80-95: numeric fields by
difference, string fields by `localeCompare`, order-reversed for `desc`;
mixed types compare as `0`. -/
def vendorCompare (f : SortField) (o : SortOrder) (a b : VendorData) : ℚ :=
  match getSortValue a f, getSortValue b f with
  | .num x, .num y => match o with | .asc => x - y | .desc => y - x
  | .str x, .str y => match o with | .asc => localeCompare x y | .desc => localeCompare y x
  | _, _ => 0

/-- The "keep `a` no later than `b`" relation of the stable sort induced by
the comparator (`Array.prototype.sort` keeps `a` before `b` unless the
comparator is positive). -/
def vendorLe (f : SortField) (o : SortOrder) (a b : VendorData) : Bool :=
  decide (vendorCompare f o a b ≤ 0)

/-- The `filteredAndSortedVendors` memo of `ComparisonTable.tsx` lines 51-96:
filter, then stable sort by the comparator. -/
def filterAndSort (vendors : List VendorData) (searchTerm filterType filterRisk : String)
    (f : SortField) (o : SortOrder) : List VendorData :=
  (vendors.filter (matchesFilters searchTerm filterType filterRisk)).mergeSort (vendorLe f o)

/-- The sorting-related component state of `ComparisonTable`. -/
structure TableSortState where
  sortField : SortField
  sortOrder : SortOrder
deriving DecidableEq

/-- Flipping `asc`/`desc`. -/
def flipOrder : SortOrder → SortOrder
  | .asc => .desc
  | .desc => .asc

/-- The click handler `handleSort` (`ComparisonTable.tsx` lines 98-105): clicking the current
sort field flips the order, clicking a different field selects it with
descending order. -/
def handleSort (s : TableSortState) (f : SortField) : TableSortState :=
  if s.sortField = f then ⟨s.sortField, flipOrder s.sortOrder⟩ else ⟨f, .desc⟩

/-- The priority of a strategic recommendation
(`FinancialRecommendations.tsx` line 11). -/
inductive RecPriority where
  | low
  | medium
  | high
deriving DecidableEq

/-- The `priorityOrder` table of `FinancialRecommendations.tsx` line 132. -/
def priorityOrder : RecPriority → ℕ
  | .high => 3
  | .medium => 2
  | .low => 1

/-- A strategic recommendation (`FinancialRecommendations.tsx` lines 9-17;
the `icon` field is a React component and is presentational, so it is not
modelled). -/
structure Recommendation where
  id : String
  priority : RecPriority
  title : String
  description : String
  affectedVendors : List String
  action : String

/-- Reading `(v.financialRatios?.debt_to_equity || 0)` as done throughout
`FinancialRecommendations.tsx` and `KPICards.tsx`. -/
def debtEquityVal (v : VendorData) : ℚ := jsOrQ (v.financialRatios.bind (·.debt_to_equity)) 0

/-- Reading `(v.financialRatios?.current_ratio || 0)`. -/
def currentRatioVal (v : VendorData) : ℚ := jsOrQ (v.financialRatios.bind (·.current_ratio)) 0

/-- Reading `(v.financialRatios?.cash_ratio || 0)`. -/
def cashRatioVal (v : VendorData) : ℚ := jsOrQ (v.financialRatios.bind (·.cash_ratio)) 0

/-- Reading `(v.riskScores?.financial_stability || v.financialStability || 0)`
(`FinancialRecommendations.tsx` line 81). -/
def financialStabilityVal (v : VendorData) : ℚ :=
  jsOrQ (v.riskScores.bind (·.financial_stability)) (jsOrQ v.financialStability 0)

/-- Reading `(v.riskScores?.growth_prospects || v.growthProspects || 0)`
(`FinancialRecommendations.tsx` line 118). -/
def growthProspectsVal (v : VendorData) : ℚ :=
  jsOrQ (v.riskScores.bind (·.growth_prospects)) (jsOrQV v.growthProspects 0)

/-- The `industryBreakdown` accumulator step: `acc[key] = (acc[key] || 0) + 1`
preserves a JavaScript object's insertion order, appending a new key at the
end. -/
def bumpCount : List (String × ℕ) → String → List (String × ℕ)
  | [], k => [(k, 1)]
  | (k₀, c) :: t, k => if k₀ = k then (k₀, c + 1) :: t else (k₀, c) :: bumpCount t k

/-- The fold `industryBreakdown` (`FinancialRecommendations.tsx` lines 98-101): counts
per industry string, in first-occurrence order. -/
def industryBreakdown (vendors : List VendorData) : List (String × ℕ) :=
  vendors.foldl (fun acc v => bumpCount acc (industryStr v.industry)) []

/-- The reduce `dominantIndustry` (`FinancialRecommendations.tsx` lines 103-104):
`entries.reduce((a, b) => a[1] > b[1] ? a : b)`, with `['', 0]` for an empty
breakdown. A later entry wins a tie. -/
def dominantIndustry (vendors : List VendorData) : String × ℕ :=
  match industryBreakdown vendors with
  | [] => ("", 0)
  | e :: t => t.foldl (fun a b => if a.2 > b.2 then a else b) e

/-- The comparator of the final `recommendations.sort`
(`FinancialRecommendations.tsx` lines 131-134):
`priorityOrder[b.priority] - priorityOrder[a.priority]`. -/
def recCompare (a b : Recommendation) : ℤ :=
  (priorityOrder b.priority : ℤ) - (priorityOrder a.priority : ℤ)

/-- The stable-sort relation the recommendation comparator induces. -/
def recLe (a b : Recommendation) : Bool := decide (recCompare a b ≤ 0)

/-- The generator `generateRecommendations` (`FinancialRecommendations.tsx` lines 20-135):
the seven independent rules, pushed in source order, then sorted by priority
(high before medium before low). -/
def generateRecommendations (vendors : List VendorData) : List Recommendation :=
  let highDebtVendors := vendors.filter (fun v => decide (debtEquityVal v > 1))
  let r1 : List Recommendation :=
    if highDebtVendors.length > 0 then
      [{ id := "high-debt", priority := .high, title := "Monitor High-Debt Vendors",
         description := natRepr highDebtVendors.length ++
           " vendors have debt-to-equity ratios above 1.0, indicating potential financial stress and higher risk of default.",
         affectedVendors := highDebtVendors.map (·.symbol),
         action := "Consider diversifying away from high-debt vendors or implementing additional monitoring protocols." }]
    else []
  let lowLiquidityVendors := vendors.filter (fun v => decide (currentRatioVal v < 1))
  let r2 : List Recommendation :=
    if lowLiquidityVendors.length > 0 then
      [{ id := "low-liquidity", priority := .high, title := "Liquidity Concerns",
         description := natRepr lowLiquidityVendors.length ++
           " vendors have current ratios below 1.0, indicating potential difficulty meeting short-term obligations.",
         affectedVendors := lowLiquidityVendors.map (·.symbol),
         action := "Review payment terms and consider requiring additional financial guarantees." }]
    else []
  let lowCashVendors := vendors.filter (fun v => decide (cashRatioVal v < 5 / 100))
  let r3 : List Recommendation :=
    if lowCashVendors.length > 0 then
      [{ id := "low-cash", priority := .medium, title := "Cash Position Concerns",
         description := natRepr lowCashVendors.length ++
           " vendors have cash ratios below 5%, which may limit operational flexibility during market downturns.",
         affectedVendors := lowCashVendors.map (·.symbol),
         action := "Monitor quarterly cash flow reports and establish contingency supplier relationships." }]
    else []
  let unprofitableVendors := vendors.filter (fun v => decide (v.profitMargin < 0))
  let r4 : List Recommendation :=
    if unprofitableVendors.length > 0 then
      [{ id := "unprofitable", priority := .high, title := "Unprofitable Operations",
         description := natRepr unprofitableVendors.length ++
           " vendors are currently operating at a loss, which raises sustainability concerns.",
         affectedVendors := unprofitableVendors.map (·.symbol),
         action := "Evaluate long-term viability and consider reducing dependency on these suppliers." }]
    else []
  let financiallyStableVendors := vendors.filter (fun v =>
    decide (financialStabilityVal v > 75) && decide (debtEquityVal v < 6 / 10) &&
    decide (v.profitMargin > 5))
  let r5 : List Recommendation :=
    if financiallyStableVendors.length > 0 then
      [{ id := "optimal-partners", priority := .low, title := "Optimal Vendor Partners",
         description := natRepr financiallyStableVendors.length ++
           " vendors demonstrate exceptional financial health across all metrics with strong balance sheets and profitability.",
         affectedVendors := financiallyStableVendors.map (·.symbol),
         action := "Consider increasing business allocation and establishing preferred supplier agreements." }]
    else []
  let dom := dominantIndustry vendors
  let r6 : List Recommendation :=
    if vendors.length > 0 ∧ (dom.2 : ℚ) / (vendors.length : ℚ) > 7 / 10 then
      [{ id := "concentration-risk", priority := .medium, title := "Industry Concentration Risk",
         description := toFixed0 ((dom.2 : ℚ) / (vendors.length : ℚ) * 100) ++
           "% of your vendor portfolio is concentrated in " ++ dom.1 ++
           ", creating sector-specific risk exposure.",
         affectedVendors := (vendors.filter (fun v => industryStr v.industry == dom.1)).map (·.symbol),
         action := "Diversify supplier base across different industries to reduce concentration risk." }]
    else []
  let lowGrowthVendors := vendors.filter (fun v => decide (growthProspectsVal v < 40))
  let r7 : List Recommendation :=
    if (lowGrowthVendors.length : ℚ) > (vendors.length : ℚ) * (3 / 10) then
      [{ id := "growth-concerns", priority := .medium, title := "Limited Growth Prospects",
         description := natRepr lowGrowthVendors.length ++ " vendors (" ++
           toFixed0 ((lowGrowthVendors.length : ℚ) / (vendors.length : ℚ) * 100) ++
           "%) show limited growth prospects, which may impact long-term competitiveness.",
         affectedVendors := lowGrowthVendors.map (·.symbol),
         action := "Evaluate vendor innovation capabilities and consider sourcing from more growth-oriented suppliers." }]
    else []
  (r1 ++ r2 ++ r3 ++ r4 ++ r5 ++ r6 ++ r7).mergeSort recLe

/-- The branch condition at `FinancialRecommendations.tsx` line 166: the
component renders the "Excellent Portfolio Health" no-data state exactly when
the generated recommendation list is empty. -/
def excellentPortfolioHealthBranch (vendors : List VendorData) : Bool :=
  (generateRecommendations vendors).length == 0

/-- The reduce `topPerformer` (`RiskAnalysisPanel.tsx` lines 21-23): `null` for an empty
list, else `reduce` keeping the earlier vendor only when its margin is
strictly larger. -/
def topPerformer (vendors : List VendorData) : Option VendorData :=
  match vendors with
  | [] => none
  | v :: t => some (t.foldl (fun prev cur => if prev.profitMargin > cur.profitMargin then prev else cur) v)

/-- The reduce `worstPerformer` (`RiskAnalysisPanel.tsx` lines 24-26). -/
def worstPerformer (vendors : List VendorData) : Option VendorData :=
  match vendors with
  | [] => none
  | v :: t => some (t.foldl (fun prev cur => if prev.profitMargin < cur.profitMargin then prev else cur) v)

/-- The unconditional allocation bullet of `RiskAnalysisPanel.tsx` lines
164-169: the JSX reads `topPerformer.symbol` with no null guard, so an empty
vendor list makes the render throw a `TypeError` (modelled as `Except.error`);
on a non-empty list it renders the bullet text. -/
def riskPanelAllocationBullet (vendors : List VendorData) : Except String String :=
  match topPerformer vendors with
  | none => .error "TypeError: cannot read symbol of null topPerformer"
  | some v => .ok ("Consider increasing allocation to " ++ v.symbol ++ " given superior margin performance")

/-- The mean `averageMargin` (`RiskAnalysisPanel.tsx` line 20), guarded against an
empty list. -/
def riskPanelAverageMargin (vendors : List VendorData) : ℚ :=
  if vendors.length > 0 then
    (vendors.foldl (fun sum v => sum + v.profitMargin) 0) / (vendors.length : ℚ)
  else 0

/-- The mean `avgProfitMargin` of the fallback KPI computation (`KPICards.tsx` line
127), guarded against an empty list. -/
def kpiAvgProfitMargin (vendors : List VendorData) : ℚ :=
  if vendors.length > 0 then
    (vendors.foldl (fun sum v => sum + v.profitMargin) 0) / (vendors.length : ℚ)
  else 0

/-- The mean `avgFinancialStability` (`KPICards.tsx` lines 142-143): the rounded mean
of `(v.riskScores?.financial_stability || 50)`, and `50` for an empty list. -/
def kpiAvgFinancialStability (vendors : List VendorData) : ℚ :=
  if vendors.length > 0 then
    mathRound ((vendors.foldl (fun sum v => sum + jsOrQ (v.riskScores.bind (·.financial_stability)) 50) 0) /
      (vendors.length : ℚ))
  else 50

lemma digitChar_isDigit : ∀ d : ℕ, (digitChar d).isDigit = true := by
  intro d
  match d with
  | 0 | 1 | 2 | 3 | 4 | 5 | 6 | 7 | 8 | 9 => rfl
  | n + 10 => rfl

lemma mem_natDigitsAux_isDigit :
    ∀ (fuel n : ℕ) (c : Char), c ∈ natDigitsAux n fuel → c.isDigit = true := by
  intro fuel
  induction fuel with
  | zero => intro n c h; simp [natDigitsAux] at h
  | succ f ih =>
    intro n c h
    simp only [natDigitsAux] at h
    by_cases hn : n < 10
    · rw [if_pos hn] at h
      simp only [List.mem_singleton] at h
      subst h
      exact digitChar_isDigit n
    · rw [if_neg hn] at h
      rcases List.mem_append.mp h with h1 | h1
      · exact ih _ c h1
      · simp only [List.mem_singleton] at h1
        subst h1
        exact digitChar_isDigit _

lemma mem_natDigits_isDigit (n : ℕ) (c : Char) (h : c ∈ natDigits n) : c.isDigit = true :=
  mem_natDigitsAux_isDigit _ n c h

lemma mem_toFixed1_data (q : ℚ) (c : Char) (h : c ∈ (toFixed1 q).data) :
    c.isDigit = true ∨ c = '.' := by
  simp only [toFixed1] at h
  rcases List.mem_append.mp h with h1 | h1
  · exact Or.inl (mem_natDigits_isDigit _ c h1)
  · rcases List.mem_cons.mp h1 with h2 | h2
    · exact Or.inr h2
    · simp only [List.mem_singleton] at h2
      subst h2
      exact Or.inl (digitChar_isDigit _)

lemma toFixed1_ne_NA (q : ℚ) : toFixed1 q ≠ "N/A" := by
  intro h
  have hm : 'N' ∈ (toFixed1 q).data := by
    rw [h]; decide
  rcases mem_toFixed1_data q 'N' hm with h1 | h1 <;> simp at h1

lemma toFixed1_eval (q : ℚ) (n : ℕ) (h : roundHalfUp (q * 10) = (n : ℤ)) :
    toFixed1 q = String.mk (natDigits (n / 10) ++ '.' :: [digitChar (n % 10)]) := by
  simp [toFixed1, h]

/-- C7: for every negative number, `formatPercentage` renders the absolute
value to one decimal, wrapped in parentheses with the percent sign inside and
with no minus sign anywhere in the output; for every non-negative number it
renders the value to one decimal followed by a percent sign; in particular
`formatPercentage (-5) = "(5.0%)"`. -/
theorem formatPercentage_parenthesizes_negatives :
    (∀ q : ℚ, q < 0 →
      formatPercentage (.num q) = "(" ++ toFixed1 (-q) ++ "%)" ∧
        ¬ '-' ∈ (formatPercentage (.num q)).data) ∧
    (∀ q : ℚ, 0 ≤ q → formatPercentage (.num q) = toFixed1 q ++ "%") ∧
    formatPercentage (.num (-5)) = "(5.0%)" := by
  refine ⟨fun q hq => ⟨?_, ?_⟩, fun q hq => ?_, ?_⟩
  · simp [formatPercentage, hq]
  · intro hm
    simp only [formatPercentage, if_pos hq] at hm
    rw [String.data_append, String.data_append] at hm
    rcases List.mem_append.mp hm with h1 | h1
    · rcases List.mem_append.mp h1 with h2 | h2
      · simp at h2
      · rcases mem_toFixed1_data _ _ h2 with h3 | h3 <;> simp at h3
    · simp at h1
  · simp [formatPercentage, if_neg (not_lt.mpr hq)]
  · have h1 : formatPercentage (.num (-5)) = "(" ++ toFixed1 (-(-5)) ++ "%)" := by
      norm_num [formatPercentage]
    rw [h1, show (-(-5) : ℚ) = 5 by norm_num,
      toFixed1_eval 5 50 (by unfold roundHalfUp; norm_num)]
    decide

/-- C8: `formatPERatio` returns `"N/A"` exactly for null, undefined, NaN,
values `≤ 0` and values `> 1000`, and renders every other value to one
decimal place; in particular `formatPERatio 1500 = "N/A"` and
`formatPERatio 22.4 = "22.4"`. -/
theorem formatPERatio_na_exactly_out_of_range :
    (∀ v : JVal, formatPERatio v = "N/A" ↔
      (v = .null ∨ v = .undef ∨ v = .nan ∨ ∃ q : ℚ, v = .num q ∧ (q ≤ 0 ∨ 1000 < q))) ∧
    (∀ q : ℚ, 0 < q → q ≤ 1000 → formatPERatio (.num q) = toFixed1 q) ∧
    formatPERatio (.num 1500) = "N/A" ∧
    formatPERatio (.num (224 / 10)) = "22.4" := by
  refine ⟨fun v => ⟨fun h => ?_, fun h => ?_⟩, fun q h1 h2 => ?_, ?_, ?_⟩
  · cases v with
    | null => exact Or.inl rfl
    | undef => exact Or.inr (Or.inl rfl)
    | nan => exact Or.inr (Or.inr (Or.inl rfl))
    | num q =>
      refine Or.inr (Or.inr (Or.inr ⟨q, rfl, ?_⟩))
      by_contra hc
      rw [formatPERatio, if_neg hc] at h
      exact toFixed1_ne_NA q h
  · rcases h with h | h | h | ⟨q, rfl, h⟩ <;> (try subst h) <;> try rfl
    rw [formatPERatio, if_pos h]
  · rw [formatPERatio, if_neg]
    push_neg
    exact ⟨h1, h2⟩
  · rw [formatPERatio, if_pos]
    norm_num
  · rw [formatPERatio, if_neg (by norm_num),
      toFixed1_eval (224 / 10) 224 (by unfold roundHalfUp; norm_num)]
    decide

/-- C10: the normalizer maps a backend industry of exactly `"Sensors"` to
`Sensors` and every other backend industry — `"Plastics"` included — to
`Materials`; a normalized record's industry is therefore never `Plastics`. -/
theorem mapBackendVendor_industry_never_plastics :
    ∀ (now : String) (b : BackendVendor),
      (mapBackendVendorToFrontend now b).industry =
        (if b.industry = some "Sensors" then Industry.Sensors else Industry.Materials) ∧
      (mapBackendVendorToFrontend now b).industry ≠ Industry.Plastics := by
  intro now b
  refine ⟨rfl, ?_⟩
  by_cases h : b.industry = some "Sensors" <;>
    simp [mapBackendVendorToFrontend, h]

lemma safeNumber_of_missing (v : JVal) (d : ℕ) (h : jsMissing v = true) :
    safeNumber v d = 0 := by
  cases v <;> simp_all [jsMissing, safeNumber]

lemma roundHalfUp_zero : roundHalfUp 0 = 0 := by
  unfold roundHalfUp
  norm_num

lemma safeNumber_num_zero (d : ℕ) : safeNumber (.num 0) d = 0 := by
  simp [safeNumber, show (0 : ℚ) * 10 ^ d = 0 by ring, roundHalfUp_zero]

lemma safeNumber_jsDivLit_of_missing (v : JVal) (d : ℚ) (h : jsMissing v = true) :
    safeNumber (jsDivLit v d) 1 = 0 := by
  cases v with
  | null => simp [jsDivLit, safeNumber_num_zero]
  | undef => rfl
  | nan => rfl
  | num q => simp [jsMissing] at h

lemma mathRound_zero : mathRound 0 = 0 := by
  simp [mathRound, roundHalfUp_zero]

/-- C2: whatever subset of backend fields is null, undefined or missing, the
normalized record's numeric fields are actual (non-null, non-NaN) rationals —
`0` whenever the backend slot was missing — and the required string fields
carry their fallbacks (`"N/A"` for symbol and name, the current timestamp for
`lastUpdated`). -/
theorem mapBackendVendor_safe_defaults :
    ∀ (now : String) (b : BackendVendor),
      (jsMissing b.marketCap = true → (mapBackendVendorToFrontend now b).marketCap = 0) ∧
      (jsMissing b.revenue = true → (mapBackendVendorToFrontend now b).revenue = 0) ∧
      (jsMissing b.profitMargin = true → (mapBackendVendorToFrontend now b).profitMargin = 0) ∧
      (jsMissing b.peRatio = true → (mapBackendVendorToFrontend now b).peRatio = 0) ∧
      (jsMissing b.weekHigh52 = true → (mapBackendVendorToFrontend now b).weekHigh52 = 0) ∧
      (jsMissing b.weekLow52 = true → (mapBackendVendorToFrontend now b).weekLow52 = 0) ∧
      (jsMissing b.currentPrice = true → (mapBackendVendorToFrontend now b).currentPrice = 0) ∧
      (jsMissing b.currentPrice = true → (mapBackendVendorToFrontend now b).stockPrice = 0) ∧
      (jsMissing b.riskScore = true → (mapBackendVendorToFrontend now b).riskScore = 0) ∧
      (jsMissing b.financialHealth = true → (mapBackendVendorToFrontend now b).financialHealth = 0) ∧
      (jsMissing b.marketStability = true → (mapBackendVendorToFrontend now b).marketStability = 0) ∧
      (jsMissing b.growthProspects = true → (mapBackendVendorToFrontend now b).growthProspects = 0) ∧
      (jsMissing b.beta = true → (mapBackendVendorToFrontend now b).beta = 0) ∧
      (jsMissing b.roe = true → (mapBackendVendorToFrontend now b).roe = 0) ∧
      (jsMissing b.debtToEquity = true → (mapBackendVendorToFrontend now b).debtToEquity = 0) ∧
      (b.symbol = none → (mapBackendVendorToFrontend now b).symbol = "N/A") ∧
      (b.name = none → (mapBackendVendorToFrontend now b).name = "N/A") ∧
      (b.lastUpdated = none → (mapBackendVendorToFrontend now b).lastUpdated = now) := by
  intro now b
  refine ⟨fun h => ?_, fun h => ?_, fun h => ?_, fun h => ?_, fun h => ?_, fun h => ?_,
    fun h => ?_, fun h => ?_, fun h => ?_, fun h => ?_, fun h => ?_, fun h => ?_,
    fun h => ?_, fun h => ?_, fun h => ?_, fun h => ?_, fun h => ?_, fun h => ?_⟩ <;>
    simp only [mapBackendVendorToFrontend] <;>
    first
      | exact safeNumber_jsDivLit_of_missing _ _ h
      | exact safeNumber_of_missing _ _ h
      | (rw [safeNumber_of_missing _ _ h]; exact mathRound_zero)
      | simp [safeString, h]

/-- The all-missing backend record: every number slot null or undefined,
every string and optional object absent. -/
def allMissingBackend : BackendVendor where
  id := .undef
  name := none
  symbol := none
  vendorType := none
  industry := none
  marketCap := .null
  profitMargin := .undef
  revenue := .undef
  weekHigh52 := .null
  weekLow52 := .undef
  currentPrice := .null
  risk := none
  riskScore := .undef
  financialHealth := .null
  marketStability := .undef
  growthProspects := .null
  peRatio := .nan
  beta := .undef
  roe := .null
  debtToEquity := .undef
  lastUpdated := none
  quarterlyRevenue := none

/-- Witness for C2 at the all-missing backend record: every numeric field of
the normalized record is `0` and the string fields carry their fallbacks. -/
theorem mapBackendVendor_safe_defaults_witness :
    (mapBackendVendorToFrontend "2024-01-01" allMissingBackend).marketCap = 0 ∧
    (mapBackendVendorToFrontend "2024-01-01" allMissingBackend).profitMargin = 0 ∧
    (mapBackendVendorToFrontend "2024-01-01" allMissingBackend).riskScore = 0 ∧
    (mapBackendVendorToFrontend "2024-01-01" allMissingBackend).symbol = "N/A" ∧
    (mapBackendVendorToFrontend "2024-01-01" allMissingBackend).lastUpdated = "2024-01-01" := by
  have h := mapBackendVendor_safe_defaults "2024-01-01" allMissingBackend
  exact ⟨h.1 rfl, h.2.2.1 rfl, h.2.2.2.2.2.2.2.2.1 rfl,
    h.2.2.2.2.2.2.2.2.2.2.2.2.2.2.2.1 rfl,
    h.2.2.2.2.2.2.2.2.2.2.2.2.2.2.2.2.2 rfl⟩

/-- C3: the `catch` branch of the normalizer returns the fully-defaulted
placeholder record whose symbol is the original record's symbol when present
and `"UNKNOWN"` otherwise; and the list normalizer maps every input record to
exactly one output record, so the vendor list never shrinks. -/
theorem mapBackendVendors_never_drops_records :
    (∀ (now : String) (b : BackendVendor),
      (fallbackVendor now b).symbol = safeString b.symbol "UNKNOWN" ∧
      (b.symbol = none → (fallbackVendor now b).symbol = "UNKNOWN") ∧
      (∀ s, b.symbol = some s → (fallbackVendor now b).symbol = s) ∧
      (fallbackVendor now b).marketCap = 0 ∧
      (fallbackVendor now b).revenue = 0 ∧
      (fallbackVendor now b).profitMargin = 0 ∧
      (fallbackVendor now b).peRatio = 0 ∧
      (fallbackVendor now b).riskScore = 50 ∧
      (fallbackVendor now b).riskLevel = RiskLevel.medium ∧
      (fallbackVendor now b).industry = Industry.Materials) ∧
    (∀ (now : String) (bs : List BackendVendor),
      (mapBackendVendorsToFrontend now bs).length = bs.length) := by
  refine ⟨fun now b => ⟨rfl, fun h => ?_, fun s h => ?_, rfl, rfl, rfl, rfl, rfl, rfl, rfl⟩,
    fun now bs => ?_⟩
  · simp [fallbackVendor, safeString, h]
  · simp [fallbackVendor, safeString, h]
  · simp [mapBackendVendorsToFrontend]

lemma flipOrder_flipOrder (o : SortOrder) : flipOrder (flipOrder o) = o := by
  cases o <;> rfl

/-- C6: when the table is sorted on field `f`, `handleSort f` flips the sort
order, a second `handleSort f` flips it back, and the displayed list —
recomputed by the pure filter-and-sort from the restored state — is the
original list again; `handleSort` on a different field resets the order to
descending. -/
theorem handleSort_double_toggle_round_trip :
    ∀ (s : TableSortState) (f g : SortField) (vendors : List VendorData)
      (searchTerm filterType filterRisk : String),
      s.sortField = f →
      (handleSort s f).sortOrder = flipOrder s.sortOrder ∧
      handleSort (handleSort s f) f = s ∧
      filterAndSort vendors searchTerm filterType filterRisk
          (handleSort (handleSort s f) f).sortField
          (handleSort (handleSort s f) f).sortOrder =
        filterAndSort vendors searchTerm filterType filterRisk s.sortField s.sortOrder ∧
      (s.sortField ≠ g → (handleSort s g).sortOrder = SortOrder.desc) := by
  intro s f g vendors searchTerm filterType filterRisk hf
  subst hf
  have h1 : handleSort s s.sortField = ⟨s.sortField, flipOrder s.sortOrder⟩ := by
    simp [handleSort]
  have h2 : handleSort (handleSort s s.sortField) s.sortField = s := by
    rw [h1]
    simp [handleSort, flipOrder_flipOrder]
  refine ⟨by rw [h1], h2, by rw [h2], fun hg => ?_⟩
  simp [handleSort, hg]

/-- Witness for C6 at a concrete state sorted descending on market cap. -/
theorem handleSort_double_toggle_round_trip_witness :
    (handleSort ⟨SortField.marketCap, SortOrder.desc⟩ SortField.marketCap).sortOrder =
      flipOrder SortOrder.desc ∧
    handleSort (handleSort ⟨SortField.marketCap, SortOrder.desc⟩ SortField.marketCap)
        SortField.marketCap = ⟨SortField.marketCap, SortOrder.desc⟩ ∧
    filterAndSort [] "" "all" "all"
        (handleSort (handleSort ⟨SortField.marketCap, SortOrder.desc⟩ SortField.marketCap)
          SortField.marketCap).sortField
        (handleSort (handleSort ⟨SortField.marketCap, SortOrder.desc⟩ SortField.marketCap)
          SortField.marketCap).sortOrder =
      filterAndSort [] "" "all" "all" SortField.marketCap SortOrder.desc ∧
    ((⟨SortField.marketCap, SortOrder.desc⟩ : TableSortState).sortField ≠ SortField.name →
      (handleSort ⟨SortField.marketCap, SortOrder.desc⟩ SortField.name).sortOrder =
        SortOrder.desc) :=
  handleSort_double_toggle_round_trip ⟨SortField.marketCap, SortOrder.desc⟩
    SortField.marketCap SortField.name [] "" "all" "all" rfl

/-- The search clause of claim C4: a non-empty search term must occur
case-insensitively in the vendor's name, symbol or industry. -/
def specSearchPass (t : String) (v : VendorData) : Prop :=
  t ≠ "" →
    (containsSub (lowerChars v.name) (lowerChars t) = true ∨
     containsSub (lowerChars v.symbol) (lowerChars t) = true ∨
     containsSub (lowerChars (industryStr v.industry)) (lowerChars t) = true)

/-- The type-filter clause of claim C4: `"materials"` buckets `Materials` and
`Plastics` together, `"sensors"` matches `Sensors` only, `"all"` matches
everything. -/
def specTypePass (ft : String) (v : VendorData) : Prop :=
  ft = "all" ∨ (ft = "sensors" ∧ v.industry = .Sensors) ∨
    (ft = "materials" ∧ (v.industry = .Materials ∨ v.industry = .Plastics))

/-- The risk-filter clause of claim C4: exact match against `riskLevel`, or
`"all"`. -/
def specRiskPass (fr : String) (v : VendorData) : Prop :=
  fr = "all" ∨ riskLevelStr v.riskLevel = fr

lemma matchesFilters_true_iff (s ft fr : String) (v : VendorData) :
    matchesFilters s ft fr v = true ↔
      ((s ≠ "" → matchesSearch s v = true) ∧
       (ft ≠ "all" → typeMatch ft v = true) ∧
       (fr ≠ "all" → riskLevelStr v.riskLevel = fr)) := by
  unfold matchesFilters
  split_ifs with h1 h2 h3 <;> simp_all

lemma typeMatch_sensors (v : VendorData) : typeMatch "sensors" v = true ↔ v.industry = .Sensors := by
  have h : ("sensors" : String) ≠ "materials" := by decide
  simp [typeMatch, h]

lemma typeMatch_materials (v : VendorData) :
    typeMatch "materials" v = true ↔ (v.industry = .Materials ∨ v.industry = .Plastics) := by
  have h : ("materials" : String) ≠ "sensors" := by decide
  simp [typeMatch, h]

/-- C4: a vendor appears in the filtered-and-sorted table exactly when it is
one of the input vendors, matches a non-empty search term case-insensitively
in name, symbol or industry, passes the type filter (`"materials"` = the
Materials or Plastics industries, `"sensors"` = Sensors only, `"all"` =
everything) and passes the risk filter (exact `riskLevel` match or `"all"`). -/
theorem filterAndSort_membership :
    ∀ (vendors : List VendorData) (searchTerm filterType filterRisk : String)
      (f : SortField) (o : SortOrder) (v : VendorData),
      filterType = "all" ∨ filterType = "sensors" ∨ filterType = "materials" →
      (v ∈ filterAndSort vendors searchTerm filterType filterRisk f o ↔
        v ∈ vendors ∧ specSearchPass searchTerm v ∧ specTypePass filterType v ∧
          specRiskPass filterRisk v) := by
  intro vendors searchTerm filterType filterRisk f o v hft
  rw [filterAndSort, List.mem_mergeSort, List.mem_filter, matchesFilters_true_iff]
  constructor
  · rintro ⟨hv, hs, ht, hr⟩
    refine ⟨hv, ?_, ?_, ?_⟩
    · intro hne
      have h0 := hs hne
      simp only [matchesSearch, Bool.or_eq_true] at h0
      tauto
    · rcases hft with rfl | rfl | rfl
      · exact Or.inl rfl
      · exact Or.inr (Or.inl ⟨rfl, (typeMatch_sensors v).mp (ht (by decide))⟩)
      · exact Or.inr (Or.inr ⟨rfl, (typeMatch_materials v).mp (ht (by decide))⟩)
    · by_cases hfr : filterRisk = "all"
      · exact Or.inl hfr
      · exact Or.inr (hr hfr)
  · rintro ⟨hv, hs, ht, hr⟩
    refine ⟨hv, ?_, ?_, ?_⟩
    · intro hne
      have h0 := hs hne
      simp only [matchesSearch, Bool.or_eq_true]
      tauto
    · intro hne
      rcases ht with rfl | ⟨rfl, hi⟩ | ⟨rfl, hi⟩
      · exact absurd rfl hne
      · exact (typeMatch_sensors v).mpr hi
      · exact (typeMatch_materials v).mpr hi
    · intro hne
      rcases hr with rfl | hr
      · exact absurd rfl hne
      · exact hr

/-- A concrete vendor record with neutral numeric fields, used by the
concrete-input witnesses. -/
def demoVendor : VendorData where
  id := 1
  symbol := "SNSR"
  name := "Sensor Corp"
  industry := .Sensors
  vendorType := .sensorSupplier
  marketCap := 10
  revenue := 5
  profitMargin := 12
  peRatio := 20
  riskLevel := .low
  quarterlyRevenue := []
  weekHigh52 := 0
  weekLow52 := 0
  lastUpdated := "2024-01-01"
  currentPrice := 0
  stockPrice := 0
  riskScore := 80
  financialHealth := 80
  marketStability := 80
  growthProspects := 80
  financialStability := none
  beta := 1
  roe := 10
  debtToEquity := 0
  balanceSheet := none
  financialRatios := none
  riskScores := none

/-- Witness for C4 at a singleton vendor list with no active filters. -/
theorem filterAndSort_membership_witness :
    demoVendor ∈ filterAndSort [demoVendor] "" "all" "all" SortField.marketCap SortOrder.desc ↔
      demoVendor ∈ [demoVendor] ∧ specSearchPass "" demoVendor ∧
        specTypePass "all" demoVendor ∧ specRiskPass "all" demoVendor :=
  filterAndSort_membership [demoVendor] "" "all" "all" SortField.marketCap SortOrder.desc
    demoVendor (Or.inl rfl)

lemma char_eq_of_toNat_eq {a b : Char} (h : a.toNat = b.toNat) : a = b :=
  Char.eq_of_val_eq (UInt32.eq_of_toBitVec_eq (BitVec.eq_of_toNat_eq h))

lemma lexLt_asymm : ∀ {a b : List Char}, lexLt a b = true → lexLt b a = false := by
  intro a
  induction a with
  | nil => intro b h; cases b <;> simp [lexLt]
  | cons x as ih =>
    intro b h
    cases b with
    | nil => simp [lexLt] at h
    | cons y bs =>
      simp only [lexLt, Bool.or_eq_true, Bool.and_eq_true, decide_eq_true_eq, beq_iff_eq] at h
      simp only [lexLt, Bool.or_eq_false_iff, Bool.and_eq_false_iff]
      rcases h with h | ⟨rfl, h⟩
      · constructor
        · simp only [decide_eq_false_iff_not]
          omega
        · by_cases hyx : y = x
          · subst hyx; omega
          · exact Or.inl (by simpa using hyx)
      · exact ⟨by simp, Or.inr (ih h)⟩

lemma lexLt_trans : ∀ {a b c : List Char},
    lexLt a b = true → lexLt b c = true → lexLt a c = true := by
  intro a
  induction a with
  | nil =>
    intro b c h1 h2
    cases b with
    | nil => simp [lexLt] at h1
    | cons y bs =>
      cases c with
      | nil => simp [lexLt] at h2
      | cons z cs => simp [lexLt]
  | cons x as ih =>
    intro b c h1 h2
    cases b with
    | nil => simp [lexLt] at h1
    | cons y bs =>
      cases c with
      | nil => simp [lexLt] at h2
      | cons z cs =>
        simp only [lexLt, Bool.or_eq_true, Bool.and_eq_true, decide_eq_true_eq,
          beq_iff_eq] at h1 h2 ⊢
        rcases h1 with h1 | ⟨rfl, h1⟩
        · rcases h2 with h2 | ⟨rfl, h2⟩
          · exact Or.inl (by omega)
          · exact Or.inl h1
        · rcases h2 with h2 | ⟨rfl, h2⟩
          · exact Or.inl h2
          · exact Or.inr ⟨rfl, ih h1 h2⟩

lemma lexLt_connex : ∀ {a b : List Char},
    lexLt a b = false → lexLt b a = false → a = b := by
  intro a
  induction a with
  | nil =>
    intro b h1 _
    cases b with
    | nil => rfl
    | cons y bs => simp [lexLt] at h1
  | cons x as ih =>
    intro b h1 h2
    cases b with
    | nil => simp [lexLt] at h2
    | cons y bs =>
      simp only [lexLt, Bool.or_eq_false_iff, Bool.and_eq_false_iff,
        decide_eq_false_iff_not, beq_eq_false_iff_ne, ne_eq] at h1 h2
      have hxy : x = y := char_eq_of_toNat_eq (by omega)
      subst hxy
      rcases h1.2 with h1' | h1'
      · exact absurd rfl h1'
      · rcases h2.2 with h2' | h2'
        · exact absurd rfl h2'
        · rw [ih h1' h2']

lemma notLexLt_trans {a b c : List Char} (hba : lexLt b a = false) (hcb : lexLt c b = false) :
    lexLt c a = false := by
  by_contra hca
  rw [Bool.not_eq_false] at hca
  by_cases hab : lexLt a b = true
  · have h3 := lexLt_trans hca hab
    rw [h3] at hcb
    exact absurd hcb (by decide)
  · rw [Bool.not_eq_true] at hab
    have h3 := lexLt_connex hab hba
    subst h3
    rw [hca] at hcb
    exact absurd hcb (by decide)

lemma localeCompare_le_zero_iff (x y : String) :
    localeCompare x y ≤ 0 ↔ lexLt y.data x.data = false := by
  unfold localeCompare
  split_ifs with h1 h2
  · simp [lexLt_asymm h1]
  · constructor
    · intro h; norm_num at h
    · intro h; rw [h2] at h; exact absurd h (by decide)
  · rw [Bool.not_eq_true] at h2
    simp [h2]

lemma strLe_trans (x y z : String) (h1 : localeCompare x y ≤ 0) (h2 : localeCompare y z ≤ 0) :
    localeCompare x z ≤ 0 := by
  rw [localeCompare_le_zero_iff] at h1 h2 ⊢
  exact notLexLt_trans h1 h2

lemma strLe_total (x y : String) : localeCompare x y ≤ 0 ∨ localeCompare y x ≤ 0 := by
  rw [localeCompare_le_zero_iff, localeCompare_le_zero_iff]
  by_cases h : lexLt x.data y.data = true
  · exact Or.inl (lexLt_asymm h)
  · exact Or.inr (by simpa using h)

lemma vendorLe_trans (f : SortField) (o : SortOrder) :
    ∀ a b c : VendorData, vendorLe f o a b → vendorLe f o b c → vendorLe f o a c := by
  intro a b c
  simp only [vendorLe, decide_eq_true_eq]
  cases f <;> cases o <;> simp only [vendorCompare, getSortValue] <;>
    first
      | (intro h1 h2; linarith)
      | exact fun h1 h2 => strLe_trans _ _ _ h1 h2
      | exact fun h1 h2 => strLe_trans _ _ _ h2 h1

lemma subLe_total (x y : ℚ) : x - y ≤ 0 ∨ y - x ≤ 0 := by
  rcases le_total x y with h | h
  · exact Or.inl (by linarith)
  · exact Or.inr (by linarith)

lemma vendorLe_total (f : SortField) (o : SortOrder) :
    ∀ a b : VendorData, vendorLe f o a b || vendorLe f o b a := by
  intro a b
  simp only [vendorLe, Bool.or_eq_true, decide_eq_true_eq]
  cases f <;> cases o <;> simp only [vendorCompare, getSortValue] <;>
    first
      | exact subLe_total _ _
      | exact strLe_total _ _

/-- C5: the filter-and-sort computation is a pure function of its arguments
(in this embedding it is literally a function, so identical inputs give
identical outputs definitionally), and it is idempotent: applied to its own
output with the same arguments it returns that output unchanged, because the
filtered elements all still pass the filter and a stable merge sort leaves an
already-sorted list untouched. -/
theorem filterAndSort_idempotent :
    ∀ (vendors : List VendorData) (searchTerm filterType filterRisk : String)
      (f : SortField) (o : SortOrder),
      filterAndSort (filterAndSort vendors searchTerm filterType filterRisk f o)
          searchTerm filterType filterRisk f o =
        filterAndSort vendors searchTerm filterType filterRisk f o := by
  intro vendors searchTerm filterType filterRisk f o
  unfold filterAndSort
  rw [List.filter_eq_self.mpr]
  · exact List.mergeSort_of_sorted
      (List.sorted_mergeSort (vendorLe_trans f o) (vendorLe_total f o) _)
  · intro a ha
    rw [List.mem_mergeSort] at ha
    exact List.of_mem_filter ha

/-- C1 (code bug evidence): on an empty vendor list the recommendation
generator produces no recommendations, so `FinancialRecommendations` takes
its "Excellent Portfolio Health" branch, and the `KPICards` fallback
aggregates evaluate to their guarded defaults — but `RiskAnalysisPanel`'s
render does not complete: `topPerformer` is null and the unconditional
`topPerformer.symbol` read in the allocation bullet throws. -/
theorem emptyVendors_render_states :
    generateRecommendations [] = [] ∧
    excellentPortfolioHealthBranch [] = true ∧
    topPerformer [] = none ∧
    worstPerformer [] = none ∧
    kpiAvgProfitMargin [] = 0 ∧
    kpiAvgFinancialStability [] = 50 ∧
    riskPanelAverageMargin [] = 0 ∧
    riskPanelAllocationBullet [] =
      Except.error "TypeError: cannot read symbol of null topPerformer" := by
  have h1 : generateRecommendations [] = [] := by
    unfold generateRecommendations
    simp [dominantIndustry, industryBreakdown]
  refine ⟨h1, ?_, rfl, rfl, rfl, rfl, rfl, rfl⟩
  unfold excellentPortfolioHealthBranch
  rw [h1]
  rfl

/-- First-match count lookup in an association list, the model of reading
`acc[key] || 0` from the breakdown object. -/
def lookupCount : List (String × ℕ) → String → ℕ
  | [], _ => 0
  | (k₀, c) :: t, k => if k₀ = k then c else lookupCount t k

lemma lookupCount_bumpCount (acc : List (String × ℕ)) (k₀ k : String) :
    lookupCount (bumpCount acc k₀) k = lookupCount acc k + (if k₀ = k then 1 else 0) := by
  induction acc with
  | nil =>
    simp only [bumpCount, lookupCount]
    by_cases h : k₀ = k <;> simp [h]
  | cons e t ih =>
    obtain ⟨a, c⟩ := e
    simp only [bumpCount]
    by_cases h1 : a = k₀
    · rw [if_pos h1]
      subst h1
      simp only [lookupCount]
      by_cases h2 : a = k
      · rw [if_pos h2, if_pos h2, if_pos h2]
      · rw [if_neg h2, if_neg h2, if_neg h2]
        omega
    · rw [if_neg h1]
      simp only [lookupCount]
      by_cases h2 : a = k
      · subst h2
        rw [if_pos rfl, if_pos rfl, if_neg (fun hc => h1 hc.symm)]
        omega
      · rw [if_neg h2, if_neg h2, ih]

lemma lookupCount_foldl (l : List VendorData) :
    ∀ (acc : List (String × ℕ)) (k : String),
      lookupCount (l.foldl (fun acc v => bumpCount acc (industryStr v.industry)) acc) k =
        lookupCount acc k + l.countP (fun v => industryStr v.industry == k) := by
  induction l with
  | nil => intro acc k; simp
  | cons v t ih =>
    intro acc k
    simp only [List.foldl_cons, List.countP_cons]
    rw [ih, lookupCount_bumpCount]
    by_cases h : industryStr v.industry = k
    · simp only [h, if_pos rfl, beq_self_eq_true, if_true]
      omega
    · simp only [if_neg h, beq_iff_eq, if_neg h]
      omega

lemma lookupCount_breakdown (vendors : List VendorData) (k : String) :
    lookupCount (industryBreakdown vendors) k =
      vendors.countP (fun v => industryStr v.industry == k) := by
  have h := lookupCount_foldl vendors [] k
  simpa [industryBreakdown, lookupCount] using h

lemma bumpCount_keys (acc : List (String × ℕ)) (k : String) :
    (bumpCount acc k).map Prod.fst =
      if k ∈ acc.map Prod.fst then acc.map Prod.fst else acc.map Prod.fst ++ [k] := by
  induction acc with
  | nil => simp [bumpCount]
  | cons e t ih =>
    obtain ⟨a, c⟩ := e
    simp only [bumpCount, List.map_cons]
    by_cases h : a = k
    · subst h
      simp
    · rw [if_neg h]
      simp only [List.map_cons, List.mem_cons]
      rw [ih]
      have hka : ¬ k = a := fun hc => h hc.symm
      by_cases h2 : k ∈ t.map Prod.fst
      · simp [h2, hka]
      · simp [h2, hka]

lemma breakdown_keys_nodup (vendors : List VendorData) :
    ((industryBreakdown vendors).map Prod.fst).Nodup := by
  suffices h : ∀ (l : List VendorData) (acc : List (String × ℕ)),
      (acc.map Prod.fst).Nodup →
      ((l.foldl (fun acc v => bumpCount acc (industryStr v.industry)) acc).map Prod.fst).Nodup by
    exact h vendors [] (by simp)
  intro l
  induction l with
  | nil => intro acc h; simpa using h
  | cons v t ih =>
    intro acc h
    simp only [List.foldl_cons]
    apply ih
    rw [bumpCount_keys]
    by_cases h2 : industryStr v.industry ∈ acc.map Prod.fst
    · simpa [h2] using h
    · rw [if_neg h2]
      rw [List.nodup_append]
      exact ⟨h, List.nodup_singleton _, by simpa using h2⟩

lemma lookupCount_of_mem_nodup :
    ∀ {es : List (String × ℕ)}, (es.map Prod.fst).Nodup →
      ∀ {k : String} {c : ℕ}, (k, c) ∈ es → lookupCount es k = c := by
  intro es
  induction es with
  | nil => intro _ k c hm; simp at hm
  | cons e t ih =>
    intro hnd k c hm
    obtain ⟨a, c₀⟩ := e
    simp only [List.map_cons, List.nodup_cons] at hnd
    rcases List.mem_cons.mp hm with h | h
    · injection h with h1 h2
      subst h1
      subst h2
      simp [lookupCount]
    · have hk : ¬ a = k := by
        intro hc
        subst hc
        exact hnd.1 (List.mem_map_of_mem Prod.fst h)
      simp only [lookupCount, if_neg hk]
      exact ih hnd.2 h

lemma mem_of_lookupCount_pos :
    ∀ {es : List (String × ℕ)} {k : String}, lookupCount es k ≠ 0 →
      (k, lookupCount es k) ∈ es := by
  intro es
  induction es with
  | nil => intro k h; simp [lookupCount] at h
  | cons e t ih =>
    intro k h
    obtain ⟨a, c⟩ := e
    by_cases h2 : a = k
    · subst h2
      simp only [lookupCount, if_pos rfl] at h ⊢
      exact List.mem_cons_self _ _
    · simp only [lookupCount, if_neg h2] at h ⊢
      exact List.mem_cons_of_mem _ (ih h)

lemma foldl_max_spec (t : List (String × ℕ)) :
    ∀ e : String × ℕ,
      (t.foldl (fun a b => if a.2 > b.2 then a else b) e) ∈ e :: t ∧
      ∀ x ∈ e :: t, x.2 ≤ (t.foldl (fun a b => if a.2 > b.2 then a else b) e).2 := by
  induction t with
  | nil =>
    intro e
    refine ⟨List.mem_singleton_self e, ?_⟩
    intro x hx
    rw [List.mem_singleton] at hx
    subst hx
    exact le_refl _
  | cons b t ih =>
    intro e
    simp only [List.foldl_cons]
    obtain ⟨hmem, hbd⟩ := ih (if e.2 > b.2 then e else b)
    have hstep : e.2 ≤ (if e.2 > b.2 then e else b).2 ∧ b.2 ≤ (if e.2 > b.2 then e else b).2 := by
      by_cases h2 : e.2 > b.2 <;> simp [h2] <;> omega
    constructor
    · rcases List.mem_cons.mp hmem with h | h
      · rw [h]
        by_cases h2 : e.2 > b.2
        · simp [h2]
        · simp [h2]
      · exact List.mem_cons_of_mem _ (List.mem_cons_of_mem _ h)
    · intro x hx
      rcases List.mem_cons.mp hx with h | h
      · subst h
        exact le_trans hstep.1 (hbd _ (List.mem_cons_self _ _))
      · rcases List.mem_cons.mp h with h3 | h3
        · subst h3
          exact le_trans hstep.2 (hbd _ (List.mem_cons_self _ _))
        · exact hbd x (List.mem_cons_of_mem _ h3)

lemma industryStr_inj (a b : Industry) : industryStr a = industryStr b ↔ a = b := by
  cases a <;> cases b <;> decide

lemma concentration_rec_mem (vendors : List VendorData)
    (hg : vendors.length > 0 ∧
      ((dominantIndustry vendors).2 : ℚ) / (vendors.length : ℚ) > 7 / 10) :
    ({ id := "concentration-risk", priority := .medium,
       title := "Industry Concentration Risk",
       description := toFixed0 (((dominantIndustry vendors).2 : ℚ) /
           (vendors.length : ℚ) * 100) ++
         "% of your vendor portfolio is concentrated in " ++ (dominantIndustry vendors).1 ++
         ", creating sector-specific risk exposure.",
       affectedVendors := (vendors.filter
         (fun v => industryStr v.industry == (dominantIndustry vendors).1)).map (·.symbol),
       action := "Diversify supplier base across different industries to reduce concentration risk." }
      : Recommendation) ∈ generateRecommendations vendors := by
  simp only [generateRecommendations, List.mem_mergeSort]
  apply List.mem_append_left
  apply List.mem_append_right
  rw [if_pos hg]
  exact List.mem_singleton_self _

/-- C9: for every non-empty vendor list in which one industry holds strictly
more than 70% of the vendors (that industry is then necessarily the most
common one), `generateRecommendations` emits a medium-priority
`concentration-risk` recommendation whose description reports the industry's
share as a whole-number percentage and whose affected vendors are exactly the
vendors of that industry. -/

lemma countP_add_countP_le_length {p q : VendorData → Bool} (l : List VendorData)
    (h : ∀ a ∈ l, p a = true → q a = false) :
    l.countP p + l.countP q ≤ l.length := by
  induction l with
  | nil => simp
  | cons a t ih =>
    have ht := ih (fun x hx => h x (List.mem_cons_of_mem _ hx))
    simp only [List.countP_cons, List.length_cons]
    by_cases hp : p a = true
    · have hq := h a (List.mem_cons_self _ _) hp
      simp only [hp, hq, Bool.false_eq_true, if_true, if_false]
      omega
    · have hp2 : p a = false := by simpa using hp
      by_cases hq : q a = true
      · simp only [hp2, hq, Bool.false_eq_true, if_true, if_false]
        omega
      · have hq2 : q a = false := by simpa using hq
        simp only [hp2, hq2, Bool.false_eq_true, if_false]
        omega

/-- C9: for every non-empty vendor list in which one industry holds strictly
more than 70% of the vendors (that industry is then necessarily the most
common one), `generateRecommendations` emits a medium-priority
`concentration-risk` recommendation whose description reports the industry's
share as a whole-number percentage and whose affected vendors are exactly the
vendors of that industry. -/
theorem concentrationRisk_recommendation_fires :
    ∀ (vendors : List VendorData) (i : Industry),
      vendors ≠ [] →
      7 * vendors.length < 10 * vendors.countP (fun v => v.industry == i) →
      ∃ r ∈ generateRecommendations vendors,
        r.id = "concentration-risk" ∧
        r.priority = RecPriority.medium ∧
        r.affectedVendors = (vendors.filter (fun v => v.industry == i)).map (·.symbol) ∧
        r.description =
          toFixed0 ((vendors.countP (fun v => v.industry == i) : ℚ) /
              (vendors.length : ℚ) * 100) ++
            "% of your vendor portfolio is concentrated in " ++ industryStr i ++
            ", creating sector-specific risk exposure." := by
  intro vendors i hne hmaj
  have hcnt : vendors.countP (fun v => industryStr v.industry == industryStr i) =
      vendors.countP (fun v => v.industry == i) := by
    apply List.countP_congr
    intro v _
    simp [industryStr_inj]
  have hnpos : 0 < vendors.length := List.length_pos.mpr hne
  have hcpos : 0 < vendors.countP (fun v => v.industry == i) := by omega
  have hlk : lookupCount (industryBreakdown vendors) (industryStr i) =
      vendors.countP (fun v => v.industry == i) := by
    rw [lookupCount_breakdown, hcnt]
  have hmem : (industryStr i, vendors.countP (fun v => v.industry == i)) ∈
      industryBreakdown vendors := by
    have h0 := @mem_of_lookupCount_pos (industryBreakdown vendors) (industryStr i)
      (by rw [hlk]; omega)
    rwa [hlk] at h0
  obtain ⟨e, t, hbd⟩ : ∃ e t, industryBreakdown vendors = e :: t := by
    cases hb : industryBreakdown vendors with
    | nil => rw [hb] at hmem; simp at hmem
    | cons e t => exact ⟨e, t, rfl⟩
  have hdomdef : dominantIndustry vendors =
      t.foldl (fun a b => if a.2 > b.2 then a else b) e := by
    simp [dominantIndustry, hbd]
  obtain ⟨hdmem, hdbd⟩ := foldl_max_spec t e
  rw [← hdomdef] at hdmem hdbd
  rw [← hbd] at hdmem hdbd
  have hdc : vendors.countP (fun v => v.industry == i) ≤ (dominantIndustry vendors).2 :=
    hdbd _ hmem
  have hdl : lookupCount (industryBreakdown vendors) (dominantIndustry vendors).1 =
      (dominantIndustry vendors).2 :=
    lookupCount_of_mem_nodup (breakdown_keys_nodup vendors) hdmem
  have hdcount : (dominantIndustry vendors).2 =
      vendors.countP (fun v => industryStr v.industry == (dominantIndustry vendors).1) := by
    rw [← hdl, lookupCount_breakdown]
  have hdkey : (dominantIndustry vendors).1 = industryStr i := by
    by_contra hdk
    have h5 : vendors.countP (fun v => industryStr v.industry == (dominantIndustry vendors).1) +
        vendors.countP (fun v => industryStr v.industry == industryStr i) ≤ vendors.length := by
      apply countP_add_countP_le_length
      intro v _ hv
      simp only [beq_iff_eq] at hv
      simp only [beq_eq_false_iff_ne, ne_eq, hv]
      exact fun hc => hdk (hv ▸ hc)
    rw [hcnt] at h5
    have h4 := hdc
    rw [hdcount] at h4
    omega
  have hdom2 : (dominantIndustry vendors).2 = vendors.countP (fun v => v.industry == i) := by
    rw [hdcount, hdkey, hcnt]
  have hguard : vendors.length > 0 ∧
      ((dominantIndustry vendors).2 : ℚ) / (vendors.length : ℚ) > 7 / 10 := by
    refine ⟨hnpos, ?_⟩
    rw [hdom2, gt_iff_lt, lt_div_iff₀ (by exact_mod_cast hnpos)]
    have hcast : ((7 * vendors.length : ℕ) : ℚ) <
        ((10 * vendors.countP (fun v => v.industry == i) : ℕ) : ℚ) := by
      exact_mod_cast hmaj
    push_cast at hcast ⊢
    linarith
  refine ⟨_, concentration_rec_mem vendors hguard, rfl, rfl, ?_, ?_⟩
  · show (vendors.filter
        (fun v => industryStr v.industry == (dominantIndustry vendors).1)).map (·.symbol) = _
    rw [hdkey]
    congr 1
    apply List.filter_congr
    intro v _
    simp [industryStr_inj]
  · show toFixed0 (((dominantIndustry vendors).2 : ℚ) / (vendors.length : ℚ) * 100) ++
        "% of your vendor portfolio is concentrated in " ++ (dominantIndustry vendors).1 ++
        ", creating sector-specific risk exposure." = _
    rw [hdkey, hdom2]

/-- A sensor-industry vendor for the concrete concentration scenario. -/
def sensorsVendor (sym : String) : VendorData :=
  { demoVendor with symbol := sym }

/-- A materials-industry vendor for the concrete concentration scenario. -/
def materialsVendor : VendorData :=
  { demoVendor with
    symbol := "MATL",
    industry := .Materials,
    vendorType := .materialsSupplier }

/-- The portfolio of the claimed scenario: five vendors, four of industry
Sensors. -/
def demoPortfolio : List VendorData :=
  [sensorsVendor "S1", sensorsVendor "S2", sensorsVendor "S3", sensorsVendor "S4",
   materialsVendor]

lemma toFixed0_eval (q : ℚ) (n : ℕ) (h : roundHalfUp q = (n : ℤ)) :
    toFixed0 q = natRepr n := by
  simp [toFixed0, natRepr, h]

/-- Witness for C9: on the five-vendor portfolio with four Sensors vendors,
the concentration-risk recommendation fires with computed percentage 80%. -/
theorem concentrationRisk_recommendation_fires_witness :
    ∃ r ∈ generateRecommendations demoPortfolio,
      r.id = "concentration-risk" ∧
      r.priority = RecPriority.medium ∧
      r.affectedVendors = ["S1", "S2", "S3", "S4"] ∧
      r.description =
        "80% of your vendor portfolio is concentrated in Sensors, creating sector-specific risk exposure." := by
  obtain ⟨r, hr, h1, h2, h3, h4⟩ :=
    concentrationRisk_recommendation_fires demoPortfolio Industry.Sensors
      (by decide) (by decide)
  refine ⟨r, hr, h1, h2, ?_, ?_⟩
  · rw [h3]
    decide
  · rw [h4]
    have hc : demoPortfolio.countP (fun v => v.industry == Industry.Sensors) = 4 := by decide
    have hl : demoPortfolio.length = 5 := by decide
    rw [hc, hl]
    have h80 : ((4 : ℕ) : ℚ) / ((5 : ℕ) : ℚ) * 100 = 80 := by norm_num
    rw [h80, toFixed0_eval 80 80 (by unfold roundHalfUp; norm_num)]
    decide
